import Mathlib

set_option maxRecDepth 100000

/-!
Verification development for the Sentinel observability proxy
(`cnrmurphy/sentinel`).  The definitions below are a shallow embedding of
the Rust sources under `src/`:

* `Json` and `Json.parse` model `serde_json::Value` / `serde_json::from_str`
  (restricted to the behaviours the proxy exercises);
* `parseSseEvents` embeds `AnthropicParser::parse_sse_events`
  (`src/parsers.rs`);
* `mirrorRun` / `mirrorTask` embed the detached mirror task spawned by
  `handle_streaming_response` (`src/proxy.rs`);
* `extractWorkingDirectory`, `extractClaudeSessionId` and friends embed the
  request-extraction helpers of `src/proxy.rs`;
* the `Agent` store operations embed `src/agent.rs` with the SQLite table
  modelled as a list of rows;
* `sseLoop` embeds the subscriber loop of `sse_handler` (`src/sse.rs`);
* `agentsHandler` and `cliDisplayStatus` embed `src/cli.rs`.

Theorems at the end settle the specification claims against these
definitions.
-/

/-- Model of `serde_json::Value`.  Numbers are kept as an integer mantissa
together with a flag recording whether the source literal was integral
(`as_i64` only succeeds on integral literals). -/
inductive Json where
  | null : Json
  | bool (b : Bool) : Json
  | num (n : Int) (isInt : Bool) : Json
  | str (s : String) : Json
  | arr (xs : List Json) : Json
  | obj (fields : List (String × Json)) : Json
deriving Repr

/-- `Value::get(key)` on an object (first binding wins). -/
def Json.getObjVal (j : Json) (k : String) : Option Json :=
  match j with
  | Json.obj fields => (fields.find? (fun p => p.1 == k)).map Prod.snd
  | _ => none

/-- `Value::as_str`. -/
def Json.asStr (j : Json) : Option String :=
  match j with
  | Json.str s => some s
  | _ => none

/-- `Value::as_i64` (integral literals only). -/
def Json.asI64 (j : Json) : Option Int :=
  match j with
  | Json.num n true => some n
  | _ => none

/-- `Value::as_array`. -/
def Json.asArray (j : Json) : Option (List Json) :=
  match j with
  | Json.arr xs => some xs
  | _ => none

/-- `Value::as_bool`. -/
def Json.asBool (j : Json) : Option Bool :=
  match j with
  | Json.bool b => some b
  | _ => none

/-- Index assignment `value[key] = v` on an object: replace the first
binding for `key`, or append a new one. -/
def Json.setObjVal (j : Json) (k : String) (v : Json) : Json :=
  match j with
  | Json.obj fields =>
      if fields.any (fun p => p.1 == k) then
        Json.obj (fields.map (fun p => if p.1 == k then (k, v) else p))
      else
        Json.obj (fields ++ [(k, v)])
  | other => other

/-- Chained lookup: `j.get k |>.and_then(|v| v.as_str())`. -/
def Json.getStr (j : Json) (k : String) : Option String :=
  (j.getObjVal k).bind Json.asStr

/-- Whether `pre` is an initial run of `l` (Rust `str::starts_with`). -/
def listStartsWith (l pre : List Char) : Bool :=
  match pre, l with
  | [], _ => true
  | _ :: _, [] => false
  | p :: ps, c :: cs => p == c && listStartsWith cs ps

/-- JSON insignificant whitespace (space, tab, line feed, carriage return). -/
def jsonIsWs (c : Char) : Bool :=
  c.toNat == 32 || c.toNat == 9 || c.toNat == 10 || c.toNat == 13

def jsonSkipWs (cs : List Char) : List Char :=
  match cs with
  | [] => []
  | c :: rest => if jsonIsWs c then jsonSkipWs rest else cs

/-- Value of one hex digit (0-9, a-f, A-F by code point). -/
def jsonHexVal (c : Char) : Option Nat :=
  let n := c.toNat
  if 48 ≤ n && n ≤ 57 then some (n - 48)
  else if 97 ≤ n && n ≤ 102 then some (n - 87)
  else if 65 ≤ n && n ≤ 70 then some (n - 55)
  else none

/-- The single-character escapes a JSON string accepts. -/
def jsonEscapeChar (e : Char) : Option Char :=
  if e == '"' || e == '\\' || e == '/' then some e
  else if e == 'n' then some (Char.ofNat 10)
  else if e == 't' then some (Char.ofNat 9)
  else if e == 'r' then some (Char.ofNat 13)
  else if e == 'b' then some (Char.ofNat 8)
  else if e == 'f' then some (Char.ofNat 12)
  else none

/-- Four hex digits of a `\u` escape, most significant first. -/
def jsonHexQuad (cs : List Char) : Option (Nat × List Char) :=
  match cs with
  | h1 :: h2 :: h3 :: h4 :: rest =>
      match jsonHexVal h1, jsonHexVal h2, jsonHexVal h3, jsonHexVal h4 with
      | some v1, some v2, some v3, some v4 =>
          some (4096 * v1 + 256 * v2 + 16 * v3 + v4, rest)
      | _, _, _, _ => none
  | _ => none

/-- Parse the body of a JSON string literal (after the opening quote). -/
def jsonParseStringBody : Nat → List Char → List Char → Option (String × List Char)
  | 0, _, _ => none
  | _ + 1, _acc, [] => none
  | fuel + 1, acc, c :: rest =>
    if c == '"' then
      some (String.mk acc.reverse, rest)
    else if c == '\\' then
      match rest with
      | [] => none
      | e :: rest2 =>
          if e == 'u' then
            match jsonHexQuad rest2 with
            | some (n, rest3) =>
                if n < 55296 ∨ 57343 < n ∧ n < 1114112 then
                  jsonParseStringBody fuel (Char.ofNat n :: acc) rest3
                else none
            | none => none
          else
            match jsonEscapeChar e with
            | some ch => jsonParseStringBody fuel (ch :: acc) rest2
            | none => none
    else
      jsonParseStringBody fuel (c :: acc) rest

/-- A decimal digit by code point. -/
def jsonIsDigit (c : Char) : Bool :=
  48 ≤ c.toNat && c.toNat ≤ 57

/-- The longest digit run at the head and what follows it. -/
def jsonTakeDigits (cs : List Char) : List Char × List Char :=
  (cs.takeWhile jsonIsDigit, cs.dropWhile jsonIsDigit)

def jsonDigitsToNat (ds : List Char) : Nat :=
  ds.foldl (fun acc c => 10 * acc + (c.toNat - 48)) 0

/-- The exponent tail after an `e`/`E`: optional sign, then required
digits; yields what follows. -/
def jsonParseExpTail (cs : List Char) : Option (List Char) :=
  let cs2 :=
    match cs with
    | sgn :: r => if sgn == '+' || sgn == '-' then r else cs
    | [] => cs
  match jsonTakeDigits cs2 with
  | ([], _) => none
  | (_, r) => some r

/-- The fraction-and-exponent tail of a number; `none` when the number has
neither, so the literal is integral. -/
def jsonParseFracExpTail (cs : List Char) : Option (Option (List Char)) :=
  match cs with
  | c :: r2 =>
      if c == '.' then
        match jsonTakeDigits r2 with
        | ([], _) => some none
        | (_, r3) =>
            match r3 with
            | e2 :: r4 =>
                if e2 == 'e' || e2 == 'E' then
                  some ((jsonParseExpTail r4).map id)
                else some (some r3)
            | [] => some (some r3)
      else if c == 'e' || c == 'E' then
        some ((jsonParseExpTail r2).map id)
      else none
  | [] => none

/-- Parse a JSON number.  The returned flag records whether the literal was
integral (no fraction/exponent part). -/
def jsonParseNumber (cs : List Char) : Option (Json × List Char) :=
  let go := fun (sign : Int) (cs1 : List Char) =>
    match jsonTakeDigits cs1 with
    | ([], _) => none
    | (ds, rest) =>
        let v : Int := sign * Int.ofNat (jsonDigitsToNat ds)
        match jsonParseFracExpTail rest with
        | none => some (Json.num v true, rest)
        | some none => none
        | some (some r) => some (Json.num v false, r)
  match cs with
  | c :: r => if c == '-' then go (-1) r else go 1 cs
  | [] => none

mutual

/-- Fuel-indexed recursive-descent JSON value parser. -/
def jsonParseValue : Nat → List Char → Option (Json × List Char)
  | 0, _ => none
  | fuel + 1, cs =>
    match jsonSkipWs cs with
    | [] => none
    | c :: rest =>
      if listStartsWith (c :: rest) ("null".toList) then
        some (Json.null, rest.drop 3)
      else if listStartsWith (c :: rest) ("true".toList) then
        some (Json.bool true, rest.drop 3)
      else if listStartsWith (c :: rest) ("false".toList) then
        some (Json.bool false, rest.drop 4)
      else if c == '"' then
        match jsonParseStringBody (rest.length + 1) [] rest with
        | some (s, rest2) => some (Json.str s, rest2)
        | none => none
      else if c == '\x5b' then
        match jsonSkipWs rest with
        | '\x5d' :: rest2 => some (Json.arr [], rest2)
        | _ =>
          match jsonParseArrayItems fuel rest with
          | some (xs, rest2) => some (Json.arr xs, rest2)
          | none => none
      else if c == '\x7b' then
        match jsonSkipWs rest with
        | '\x7d' :: rest2 => some (Json.obj [], rest2)
        | _ =>
          match jsonParseObjFields fuel rest with
          | some (fs, rest2) => some (Json.obj fs, rest2)
          | none => none
      else
        jsonParseNumber (c :: rest)

/-- Comma-separated array items up to the closing bracket. -/
def jsonParseArrayItems : Nat → List Char → Option (List Json × List Char)
  | 0, _ => none
  | fuel + 1, cs =>
    match jsonParseValue fuel cs with
    | none => none
    | some (v, rest) =>
      match jsonSkipWs rest with
      | ',' :: rest2 =>
        match jsonParseArrayItems fuel rest2 with
        | some (xs, rest3) => some (v :: xs, rest3)
        | none => none
      | '\x5d' :: rest2 => some ([v], rest2)
      | _ => none

/-- Comma-separated object members up to the closing brace. -/
def jsonParseObjFields : Nat → List Char → Option (List (String × Json) × List Char)
  | 0, _ => none
  | fuel + 1, cs =>
    match jsonSkipWs cs with
    | '"' :: rest =>
      match jsonParseStringBody (rest.length + 1) [] rest with
      | none => none
      | some (k, rest2) =>
        match jsonSkipWs rest2 with
        | ':' :: rest3 =>
          match jsonParseValue fuel rest3 with
          | none => none
          | some (v, rest4) =>
            match jsonSkipWs rest4 with
            | ',' :: rest5 =>
              match jsonParseObjFields fuel rest5 with
              | some (fs, rest6) => some ((k, v) :: fs, rest6)
              | none => none
            | '\x7d' :: rest5 => some ([(k, v)], rest5)
            | _ => none
        | _ => none
    | _ => none

end

/-- `serde_json::from_str::<Value>`: a complete JSON document with nothing
but whitespace after it. -/
def Json.parse (s : String) : Option Json :=
  match jsonParseValue (s.length + 1) s.toList with
  | some (v, rest) => if (jsonSkipWs rest).isEmpty then some v else none
  | none => none

example : Json.parse "null" = some Json.null := rfl

example :
    (Json.parse "\x7b\"type\":\"message_start\",\"message\":\x7b\"id\":\"m\",\"model\":\"c\"\x7d\x7d").bind
      (fun j => j.getStr "type") = some "message_start" := rfl

example :
    (Json.parse " \x7b\"a\": [1, true, null, \"x\\n\"], \"b\": -3.5\x7d ").isSome = true := rfl

/-- `ToolCall` from `src/parsers.rs`. -/
structure ToolCall where
  id : String
  name : String
  input : Json
deriving Repr

/-- `Usage` from `src/parsers.rs`. -/
structure Usage where
  input_tokens : Option Int
  output_tokens : Option Int
  cache_read_tokens : Option Int
  cache_creation_tokens : Option Int
deriving Repr, DecidableEq

/-- `ParsedResponse` from `src/parsers.rs`: the SSE fold's accumulator. -/
structure ParsedResponse where
  thinking : Option String
  text : Option String
  tool_calls : List ToolCall
  usage : Option Usage
  raw : String
  streaming : Bool
  metadata : Json
deriving Repr

/-- Split a character list at every `'\n'` (like `String::split`, keeping
empty fragments). -/
def splitOnNewline : List Char → List (List Char)
  | [] => [[]]
  | c :: rest =>
      let r := splitOnNewline rest
      if c == '\n' then [] :: r
      else
        match r with
        | h :: t => (c :: h) :: t
        | [] => [[c]]

def dropTrailingCR (l : List Char) : List Char :=
  if l.getLast? == some '\r' then l.dropLast else l

/-- Rust `str::lines`: split on `'\n'`, strip a trailing `'\r'` from each
line, and drop the empty fragment after a final newline. -/
def rustLines (s : String) : List (List Char) :=
  match splitOnNewline s.toList with
  | [] => []
  | parts =>
      let parts := if parts.getLast? == some [] then parts.dropLast else parts
      parts.map dropTrailingCR

/-- Mutable locals of `AnthropicParser::parse_sse_events`. -/
structure SseFoldState where
  thinking : String
  text : String
  tool_calls : List ToolCall
  usage : Option Usage
  metadata : Json
  current_tool_id : Option String
  current_tool_name : Option String
  current_tool_input : String

def sseInitState : SseFoldState :=
  ⟨"", "", [], none, Json.obj [], none, none, ""⟩

/-- One `data:` record's effect on the accumulator (the body of the big
`match` in `parse_sse_events`). -/
def sseApplyEvent (st : SseFoldState) (event : Json) : SseFoldState :=
  match (event.getObjVal "type").bind Json.asStr with
  | some "message_start" =>
      match event.getObjVal "message" with
      | some msg =>
          let md := match msg.getObjVal "model" with
                    | some model => st.metadata.setObjVal "model" model
                    | none => st.metadata
          let md := match msg.getObjVal "id" with
                    | some i => md.setObjVal "message_id" i
                    | none => md
          { st with metadata := md }
      | none => st
  | some "content_block_start" =>
      match event.getObjVal "content_block" with
      | some block =>
          if (block.getObjVal "type").bind Json.asStr == some "tool_use" then
            { st with
                current_tool_id := block.getStr "id",
                current_tool_name := block.getStr "name",
                current_tool_input := "" }
          else st
      | none => st
  | some "content_block_delta" =>
      match event.getObjVal "delta" with
      | some delta =>
          match (delta.getObjVal "type").bind Json.asStr with
          | some "thinking_delta" =>
              match delta.getStr "thinking" with
              | some t => { st with thinking := st.thinking ++ t }
              | none => st
          | some "text_delta" =>
              match delta.getStr "text" with
              | some t => { st with text := st.text ++ t }
              | none => st
          | some "input_json_delta" =>
              match delta.getStr "partial_json" with
              | some j => { st with current_tool_input := st.current_tool_input ++ j }
              | none => st
          | _ => st
      | none => st
  | some "content_block_stop" =>
      match st.current_tool_id, st.current_tool_name with
      | some i, some n =>
          let input := (Json.parse st.current_tool_input).getD (Json.obj [])
          { st with
              tool_calls := st.tool_calls ++ [⟨i, n, input⟩],
              current_tool_id := none,
              current_tool_name := none,
              current_tool_input := "" }
      | i, n =>
          let _ := (i, n)
          { st with current_tool_id := none, current_tool_name := none }
  | some "message_delta" =>
      let st :=
        match event.getObjVal "usage" with
        | some u =>
            { st with usage := some (Usage.mk
                ((u.getObjVal "input_tokens").bind Json.asI64)
                ((u.getObjVal "output_tokens").bind Json.asI64)
                ((u.getObjVal "cache_read_input_tokens").bind Json.asI64)
                ((u.getObjVal "cache_creation_input_tokens").bind Json.asI64)) }
        | none => st
      match event.getObjVal "delta" with
      | some delta =>
          match delta.getObjVal "stop_reason" with
          | some reason => { st with metadata := st.metadata.setObjVal "stop_reason" reason }
          | none => st
      | none => st
  | _ => st

/-- One SSE line's effect: lines without a `data: ` marker and lines whose
payload is not valid JSON are skipped. -/
def sseApplyLine (st : SseFoldState) (line : List Char) : SseFoldState :=
  if listStartsWith line ("data: ".toList) then
    match Json.parse (String.mk (line.drop 6)) with
    | some event => sseApplyEvent st event
    | none => st
  else st

/-- `AnthropicParser::parse_sse_events` (`src/parsers.rs`): fold the lines
of the raw SSE text, then collapse empty strings to `None`. -/
def parse_sse_events (raw : String) : ParsedResponse :=
  let st := (rustLines raw).foldl sseApplyLine sseInitState
  { thinking := if st.thinking = "" then none else some st.thinking,
    text := if st.text = "" then none else some st.text,
    tool_calls := st.tool_calls,
    usage := st.usage,
    raw := raw,
    streaming := true,
    metadata := st.metadata }

/-- `AnthropicParser::parse_streaming` delegates to `parse_sse_events`. -/
def parse_streaming (raw : String) : ParsedResponse :=
  parse_sse_events raw

/-- The SSE input of scenario S1: four `data:` lines separated by blank
lines (`message_start`, two `text_delta`s, `message_stop`). -/
def s1Input : String :=
  "data: \x7b\"type\":\"message_start\",\"message\":\x7b\"id\":\"m\",\"model\":\"c\"\x7d\x7d\n\n" ++
  "data: \x7b\"type\":\"content_block_delta\",\"delta\":\x7b\"type\":\"text_delta\",\"text\":\"Hello\"\x7d\x7d\n\n" ++
  "data: \x7b\"type\":\"content_block_delta\",\"delta\":\x7b\"type\":\"text_delta\",\"text\":\" world\"\x7d\x7d\n\n" ++
  "data: \x7b\"type\":\"message_stop\"\x7d"

example : (parse_streaming s1Input).text = some "Hello world" := rfl
example : (parse_streaming s1Input).metadata.getStr "model" = some "c" := rfl
example : (parse_streaming s1Input).metadata.getStr "message_id" = some "m" := rfl
example : (parse_streaming s1Input).streaming = true := rfl
example : (parse_streaming s1Input).thinking = none := rfl

/-- One `stream.next()` outcome inside the mirror task. -/
inductive ChunkResult where
  | ok (chunk : String) : ChunkResult
  | err (msg : String) : ChunkResult
deriving Repr, DecidableEq

/-- State of the mirror task's loop when it exits: `accumulated` is the
`response_chunks` vector, `delivered` the chunks the downstream receiver
actually got, `readError` whether the loop exited through the `Err` arm. -/
structure MirrorOutcome where
  accumulated : List String
  delivered : List String
  readError : Bool
deriving Repr, DecidableEq

/-- The `while let` loop of the mirror task in `handle_streaming_response`
(`src/proxy.rs`).  `dropAfter = some k` models a downstream receiver that
consumes `k` chunks and then drops (so the `k+1`-st `tx.send` fails);
`none` models a receiver that never drops.  On `Ok`: push to
`response_chunks`, then send; a failed send breaks the loop.  On `Err`:
log and break. -/
def mirrorLoopGo (dropAfter : Option Nat) :
    List ChunkResult → List String → List String → MirrorOutcome
  | [], acc, sent => ⟨acc.reverse, sent.reverse, false⟩
  | ChunkResult.ok c :: rest, acc, sent =>
      let acc2 := c :: acc
      let sendOk := match dropAfter with
                    | none => true
                    | some k => sent.length < k
      if sendOk then mirrorLoopGo dropAfter rest acc2 (c :: sent)
      else ⟨acc2.reverse, sent.reverse, false⟩
  | ChunkResult.err _ :: _, acc, sent => ⟨acc.reverse, sent.reverse, true⟩

def mirrorRun (chunks : List ChunkResult) (dropAfter : Option Nat) : MirrorOutcome :=
  mirrorLoopGo dropAfter chunks [] []

/-- The whole mirror task: run the loop, then — unless the request was
telemetry — decode the accumulator, run the SSE parser and emit a response
event carrying the parsed value.  The emission happens after every loop
exit, whether by upstream EOF, failed send, or chunk-read error. -/
def mirrorTask (chunks : List ChunkResult) (dropAfter : Option Nat)
    (isTelemetry : Bool) : MirrorOutcome × Option ParsedResponse :=
  let o := mirrorRun chunks dropAfter
  (o, if isTelemetry then none
      else some (parse_streaming (String.join o.accumulated)))

/-- Index of the first occurrence of `pat` in `hay` (Rust `str::find`). -/
def findSubstrIdx (hay pat : List Char) : Option Nat :=
  if listStartsWith hay pat then some 0
  else
    match hay with
    | [] => none
    | _ :: rest => (findSubstrIdx rest pat).map (fun n => n + 1)

/-- Index of the last occurrence of `pat` in `hay` (for `str::rsplit_once`). -/
def findLastSubstrIdx (hay pat : List Char) : Option Nat :=
  match hay with
  | [] => if listStartsWith [] pat then some 0 else none
  | c :: rest =>
      match findLastSubstrIdx rest pat with
      | some n => some (n + 1)
      | none => if listStartsWith (c :: rest) pat then some 0 else none

/-- Rust `str::trim` (whitespace at both ends). -/
def trimChars (l : List Char) : List Char :=
  ((l.dropWhile Char.isWhitespace).reverse.dropWhile Char.isWhitespace).reverse

/-- The closure `search_text` inside `extract_working_directory`
(`src/proxy.rs`): find the first `"Working directory:"`, take the rest of
that line, trim it, and reject an empty result. -/
def search_text (text : String) : Option String :=
  match findSubstrIdx text.toList ("Working directory:".toList) with
  | none => none
  | some start =>
      let rest := text.toList.drop (start + 18)
      let stop := (findSubstrIdx rest ['\n']).getD rest.length
      let dir := trimChars (rest.take stop)
      if dir.isEmpty then none else some (String.mk dir)

/-- `extract_working_directory` (`src/proxy.rs`): the `system` field is
searched in both its string and its array-of-blocks form; `messages`
entries are searched only when their `content` is a plain string. -/
def extract_working_directory (j : Json) : Option String :=
  let fromSystem :=
    match j.getObjVal "system" with
    | some system =>
        let viaStr :=
          match system.asStr with
          | some t => search_text t
          | none => none
        match viaStr with
        | some d => some d
        | none =>
            match system.asArray with
            | some blocks =>
                blocks.findSome? (fun (b : Json) =>
                  match b.getStr "text" with
                  | some t => search_text t
                  | none => none)
            | none => none
    | none => none
  match fromSystem with
  | some d => some d
  | none =>
      match (j.getObjVal "messages").bind Json.asArray with
      | some msgs =>
          msgs.findSome? (fun (m : Json) =>
            match (m.getObjVal "content").bind Json.asStr with
            | some c => search_text c
            | none => none)
      | none => none

/-- All text segments of `system` and `messages.content`, with the
array-of-text-blocks form included for messages as well — this follows the
SPEC's wording of working-directory extraction, for comparison with
`extract_working_directory` above. -/
def spec_text_segments (j : Json) : List String :=
  let systemSegs :=
    match j.getObjVal "system" with
    | some system =>
        (match system.asStr with
         | some t => [t]
         | none => []) ++
        (match system.asArray with
         | some blocks => blocks.filterMap (fun (b : Json) => b.getStr "text")
         | none => [])
    | none => []
  let messageSegs :=
    match (j.getObjVal "messages").bind Json.asArray with
    | some msgs =>
        msgs.flatMap (fun (m : Json) =>
          match m.getObjVal "content" with
          | some content =>
              (match content.asStr with
               | some t => [t]
               | none => []) ++
              (match content.asArray with
               | some blocks => blocks.filterMap (fun (b : Json) => b.getStr "text")
               | none => [])
          | none => [])
    | none => []
  systemSegs ++ messageSegs

/-- Working-directory extraction as the spec words it: search ALL text
segments of `system` and `messages.content` alike; first match wins. -/
def extract_working_directory_specModel (j : Json) : Option String :=
  (spec_text_segments j).findSome? search_text

/-- `extract_session_id_from_metadata_user_id` (`src/proxy.rs`): the
suffix after the last `"_session_"` in `metadata.user_id`, empty suffix
rejected. -/
def extract_session_id_from_metadata_user_id (j : Json) : Option String :=
  match (j.getObjVal "metadata").bind
        (fun m => (m.getObjVal "user_id").bind Json.asStr) with
  | none => none
  | some uid =>
      match findLastSubstrIdx uid.toList ("_session_".toList) with
      | none => none
      | some idx =>
          let suffix := uid.toList.drop (idx + 9)
          if suffix.isEmpty then none else some (String.mk suffix)

/-- `extract_session_id_from_events` (`src/proxy.rs`): the first
`events[i].event_data.session_id` that is a string. -/
def extract_session_id_from_events (j : Json) : Option String :=
  match (j.getObjVal "events").bind Json.asArray with
  | none => none
  | some events =>
      events.findSome? (fun (e : Json) =>
        (e.getObjVal "event_data").bind
          (fun d => (d.getObjVal "session_id").bind Json.asStr))

/-- `extract_claude_session_id` (`src/proxy.rs`): metadata location first,
then the telemetry-events location. -/
def extract_claude_session_id (j : Json) : Option String :=
  (extract_session_id_from_metadata_user_id j).orElse
    (fun _ => extract_session_id_from_events j)

/-- `AgentStatus` from `src/agent.rs`. -/
inductive AgentStatus where
  | active : AgentStatus
  | inactive : AgentStatus
deriving Repr, DecidableEq

/-- `Agent` from `src/agent.rs`.  UUIDs are modelled as `Nat`, timestamps
as seconds since an arbitrary epoch (the RFC 3339 strings stored by the
code order the same way). -/
structure Agent where
  id : Nat
  name : String
  session_id : String
  working_directory : Option String
  created_at : Nat
  last_seen_at : Nat
  status : AgentStatus
  topic : Option String
deriving Repr, DecidableEq

/-- The `agents` table, in insertion order. -/
abbrev AgentTable := List Agent

/-- `SELECT ... WHERE session_id = ?` with `fetch_optional` (first row). -/
def find_by_session_id (st : AgentTable) (sid : String) : Option Agent :=
  st.find? (fun a => a.session_id == sid)

/-- `SELECT ... WHERE name = ?` with `fetch_optional`. -/
def find_by_name (st : AgentTable) (n : String) : Option Agent :=
  st.find? (fun a => a.name == n)

/-- `UPDATE agents SET last_seen_at = ?, status = ? WHERE id = ?`. -/
def update_last_seen (st : AgentTable) (id : Nat) (now : Nat)
    (status : AgentStatus) : AgentTable :=
  st.map (fun a => if a.id == id then
      { a with last_seen_at := now, status := status } else a)

/-- `UPDATE agents SET working_directory = ? WHERE id = ?`. -/
def update_working_directory (st : AgentTable) (id : Nat)
    (wd : Option String) : AgentTable :=
  st.map (fun a => if a.id == id then { a with working_directory := wd } else a)

/-- `INSERT INTO agents ...`: fails (UNIQUE constraint) when the name is
already taken. -/
def insertAgent (st : AgentTable) (a : Agent) : Except Unit AgentTable :=
  if st.any (fun b => b.name == a.name) then Except.error ()
  else Except.ok (st ++ [a])

/-- The name-collision retry loop of `get_or_create_agent`: regenerate
while the name is taken, at most 10 times; `draws i` is the `i`-th output
of `generate_name()`.  After exhausting the retries the (possibly still
colliding) name is returned and the subsequent insert fails. -/
def pickNameGo (st : AgentTable) (draws : Nat → String) :
    Nat → String → Nat → String
  | 0, name, _ => name
  | fuel + 1, name, i =>
      if (find_by_name st name).isSome then pickNameGo st draws fuel (draws i) (i + 1)
      else name

def pickName (st : AgentTable) (draws : Nat → String) : String :=
  pickNameGo st draws 10 (draws 0) 1

/-- `AgentStore::get_or_create_agent` (`src/agent.rs`).  `draws` supplies
the outputs of `generate_name()`, `newId` the fresh UUID, `now` the
current time.  Existing agent: bump `last_seen_at`/`status`, set the
working directory once if the record has none and the call brings one.
New agent: pick a name, insert. -/
def get_or_create_agent (st : AgentTable) (session_id : String)
    (working_directory : Option String) (draws : Nat → String)
    (newId : Nat) (now : Nat) : Except Unit (Agent × AgentTable) :=
  match find_by_session_id st session_id with
  | some agent =>
      let st1 := update_last_seen st agent.id now AgentStatus.active
      if working_directory.isSome ∧ agent.working_directory = none then
        let st2 := update_working_directory st1 agent.id working_directory
        Except.ok ({ agent with working_directory := working_directory }, st2)
      else
        Except.ok (agent, st1)
  | none =>
      let name := pickName st draws
      let a : Agent :=
        { id := newId, name := name, session_id := session_id,
          working_directory := working_directory,
          created_at := now, last_seen_at := now,
          status := AgentStatus.active, topic := none }
      match insertAgent st a with
      | Except.ok st2 => Except.ok (a, st2)
      | Except.error e => Except.error e

/-- `AgentStore::mark_inactive` (`src/agent.rs`):
`UPDATE agents SET status = inactive, last_seen_at = now WHERE session_id = ?`. -/
def mark_inactive (st : AgentTable) (session_id : String) (now : Nat) : AgentTable :=
  st.map (fun a => if a.session_id == session_id then
      { a with status := AgentStatus.inactive, last_seen_at := now } else a)

/-- `AgentStore::update_topic`: unconditional overwrite by id. -/
def update_topic (st : AgentTable) (id : Nat) (topic : String) : AgentTable :=
  st.map (fun a => if a.id == id then { a with topic := some topic } else a)

def insertByLastSeenDesc (a : Agent) : List Agent → List Agent
  | [] => [a]
  | b :: rest =>
      if a.last_seen_at ≤ b.last_seen_at then b :: insertByLastSeenDesc a rest
      else a :: b :: rest

/-- `ORDER BY last_seen_at DESC` (insertion sort, descending). -/
def sortByLastSeenDesc : List Agent → List Agent
  | [] => []
  | a :: rest => insertByLastSeenDesc a (sortByLastSeenDesc rest)

/-- `AgentStore::list_all` (`src/agent.rs`): every stored row, sorted by
`last_seen_at` descending, fields exactly as stored. -/
def list_all (st : AgentTable) : List Agent :=
  sortByLastSeenDesc st

/-- `agents_handler` (`src/cli.rs`), the body of `GET /api/agents`: the
`list_all` rows serialized as-is (empty list on a store error). -/
def agents_handler (st : AgentTable) : List Agent :=
  list_all st

/-- The status shown by the CLI `agents` command (`show_agents` in
`src/cli.rs`): derived at display time, `inactive` when `last_seen_at` is
more than 5 minutes (300 s) in the past. -/
def cliDisplayStatus (now : Nat) (a : Agent) : AgentStatus :=
  if 300 < now - a.last_seen_at then AgentStatus.inactive else AgentStatus.active

/-- The fields of `event.rs`'s `ObservabilityEvent` that the subscriber
loop reads (`seq` for correlation, `agent` for filtering); the remaining
fields ride along opaquely and are irrelevant to the loop. -/
structure OEvent where
  seq : Option Int
  agent : Option String
deriving Repr, DecidableEq

/-- `SSeMessageEnvelope` from `src/sse.rs`. -/
inductive SSeMessageEnvelope where
  | observabilityEvent (event : OEvent) : SSeMessageEnvelope
  | resyncRequired (events_dropped : Nat) (latest_seq : Nat) : SSeMessageEnvelope
deriving Repr, DecidableEq

/-- One `event_receiver.recv()` outcome in `sse_handler`. -/
inductive RecvResult where
  | ok (event : OEvent) : RecvResult
  | lagged (n : Nat) : RecvResult
  | closed : RecvResult
deriving Repr, DecidableEq

/-- The subscriber loop of `sse_handler` (`src/sse.rs`): matching events
pass the optional agent filter; a lag of `n` yields
`resync_required { events_dropped := n, latest_seq := 0 }` (the code hard
codes `latest_seq: 0`); a closed channel ends the stream. -/
def sseLoop (agent_filter : Option String) : List RecvResult → List SSeMessageEnvelope
  | [] => []
  | RecvResult.ok e :: rest =>
      match agent_filter with
      | some f =>
          if e.agent == some f then
            SSeMessageEnvelope.observabilityEvent e :: sseLoop agent_filter rest
          else
            sseLoop agent_filter rest
      | none => SSeMessageEnvelope.observabilityEvent e :: sseLoop agent_filter rest
  | RecvResult.lagged n :: rest =>
      SSeMessageEnvelope.resyncRequired n 0 :: sseLoop agent_filter rest
  | RecvResult.closed :: _ => []

/-- Modelled from the spec: the topic classifier ("if [the final text]
parses as JSON of the shape `{ isNewTopic: bool, title: string? }`,
`is_topic_event` is set").  `src/parsers.rs`'s `ParsedResponse` carries no
`is_topic_event` or `topic` field and no classifier exists in `src/`; this
derives the flag the spec describes from a parsed response's final text. -/
def is_topic_event_of_text (text : Option String) : Bool :=
  match text with
  | none => false
  | some t =>
      match Json.parse t with
      | some j =>
          (match j.getObjVal "isNewTopic" with
           | some (Json.bool _) => true
           | _ => false) &&
          (match j.getObjVal "title" with
           | none => true
           | some (Json.str _) => true
           | some Json.null => true
           | some _ => false)
      | none => false

/-- An SSE chunk carrying one `text_delta` with text "A". -/
def chunkA : String :=
  "data: \x7b\"type\":\"content_block_delta\",\"delta\":\x7b\"type\":\"text_delta\",\"text\":\"A\"\x7d\x7d\n\n"

/-- An SSE chunk carrying one `text_delta` with text "B". -/
def chunkB : String :=
  "data: \x7b\"type\":\"content_block_delta\",\"delta\":\x7b\"type\":\"text_delta\",\"text\":\"B\"\x7d\x7d\n\n"

/-- An SSE chunk carrying one `text_delta` with text "C". -/
def chunkC : String :=
  "data: \x7b\"type\":\"content_block_delta\",\"delta\":\x7b\"type\":\"text_delta\",\"text\":\"C\"\x7d\x7d\n\n"

/-- An SSE chunk whose single `text_delta` makes the final text the
topic-classifier JSON of scenario S3. -/
def topicChunk : String :=
  "data: \x7b\"type\":\"content_block_delta\",\"delta\":\x7b\"type\":\"text_delta\",\"text\":\"\x7b\\\"isNewTopic\\\":true,\\\"title\\\":\\\"Fix auth bug\\\"\x7d\"\x7d\x7d\n\n"

example : (parse_streaming (String.join [chunkA, chunkB])).text = some "AB" := rfl
example :
    is_topic_event_of_text ((parse_streaming (String.join [topicChunk])).text) = true := rfl

/-- With a never-dropping receiver, an all-`Ok` stream is fully
accumulated and fully delivered. -/
theorem mirrorLoopGo_none_ok (cs : List String) (acc sent : List String) :
    mirrorLoopGo none (cs.map ChunkResult.ok) acc sent =
      ⟨acc.reverse ++ cs, sent.reverse ++ cs, false⟩ := by
  induction cs generalizing acc sent with
  | nil => simp [mirrorLoopGo]
  | cons c rest ih => simp [mirrorLoopGo, ih]

/-- A chunk-read error ends the loop at once: everything after the first
`Err` is never read, and the `Err` arm leaves the accumulator as it was. -/
theorem mirrorLoopGo_err (cs : List String) (e : String) (tail : List ChunkResult)
    (acc sent : List String) :
    mirrorLoopGo none (cs.map ChunkResult.ok ++ ChunkResult.err e :: tail) acc sent =
      ⟨acc.reverse ++ cs, sent.reverse ++ cs, true⟩ := by
  induction cs generalizing acc sent with
  | nil => simp [mirrorLoopGo]
  | cons c rest ih => simp [mirrorLoopGo, ih]

/-- With a receiver that drops after `k` chunks, the loop exits at the
first failed send: it has then accumulated exactly the first
`k - sent.length + 1` remaining chunks. -/
theorem mirrorLoopGo_drop (cs : List String) (k : Nat) (acc sent : List String)
    (hlen : k - sent.length < cs.length) :
    mirrorLoopGo (some k) (cs.map ChunkResult.ok) acc sent =
      ⟨acc.reverse ++ cs.take (k - sent.length + 1),
       sent.reverse ++ cs.take (k - sent.length), false⟩ := by
  induction cs generalizing acc sent with
  | nil => simp at hlen
  | cons c rest ih =>
      by_cases h : sent.length < k
      · have h1 : k - (c :: sent).length < rest.length := by
          simp at hlen ⊢
          omega
        have h2 : k - (c :: sent).length + 1 = k - sent.length := by
          simp
          omega
        have h3 : k - sent.length = (k - sent.length - 1) + 1 := by omega
        have h4 : k - (c :: sent).length = k - sent.length - 1 := by
          simp
          omega
        simp only [mirrorLoopGo, List.map_cons]
        rw [if_pos (by simpa using h)]
        rw [ih (c :: acc) (c :: sent) h1]
        rw [h2, h4]
        rw [MirrorOutcome.mk.injEq]
        refine ⟨?_, ?_, rfl⟩
        · simp [List.take_succ_cons]
        · conv_rhs => rw [h3]
          simp [List.take_succ_cons]
      · have hk : k - sent.length = 0 := by omega
        simp only [mirrorLoopGo, List.map_cons]
        rw [if_neg (by simpa using h)]
        simp [hk]

/-- C1.  The claim says the mirror task keeps reading and accumulating
after the downstream receiver drops, so the emitted event holds ALL
upstream chunks.  Counterexample: three text-delta chunks, receiver drops
after one delivered chunk — the loop `break`s at the failed send, the
event is built from "AB" only, not "ABC". -/
theorem mirror_drop_truncates_event :
    ((mirrorTask [ChunkResult.ok chunkA, ChunkResult.ok chunkB, ChunkResult.ok chunkC]
        (some 1) false).2.map ParsedResponse.text) = some (some "AB") ∧
    (parse_streaming (String.join [chunkA, chunkB, chunkC])).text = some "ABC" ∧
    ("AB" : String) ≠ "ABC" :=
  ⟨rfl, rfl, by decide⟩

/-- C1 (amended).  When the downstream receiver drops after `k` chunks,
the mirror task stops reading upstream entirely at the first failed send:
it accumulates exactly the first `k + 1` chunks (the failed send's chunk
was already pushed) and the response event emitted afterwards is built
from those chunks only. -/
theorem mirror_drop_event_truncated (cs : List String) (k : Nat)
    (h : k < cs.length) :
    (mirrorTask (cs.map ChunkResult.ok) (some k) false).1 =
      ⟨cs.take (k + 1), cs.take k, false⟩ ∧
    (mirrorTask (cs.map ChunkResult.ok) (some k) false).2 =
      some (parse_streaming (String.join (cs.take (k + 1)))) := by
  have hrun : mirrorRun (cs.map ChunkResult.ok) (some k) =
      ⟨cs.take (k + 1), cs.take k, false⟩ := by
    have := mirrorLoopGo_drop cs k [] [] (by simpa using h)
    simpa [mirrorRun] using this
  constructor
  · simpa [mirrorTask] using hrun
  · simp [mirrorTask, hrun]

/-- Witness for `mirror_drop_event_truncated` at `cs = [A,B,C]`, `k = 1`. -/
theorem mirror_drop_event_truncated_witness :
    1 < ([chunkA, chunkB, chunkC] : List String).length ∧
    ((mirrorTask ([chunkA, chunkB, chunkC].map ChunkResult.ok) (some 1) false).1 =
        ⟨[chunkA, chunkB, chunkC].take (1 + 1), [chunkA, chunkB, chunkC].take 1, false⟩ ∧
      (mirrorTask ([chunkA, chunkB, chunkC].map ChunkResult.ok) (some 1) false).2 =
        some (parse_streaming (String.join ([chunkA, chunkB, chunkC].take (1 + 1))))) :=
  ⟨by decide, mirror_drop_event_truncated [chunkA, chunkB, chunkC] 1 (by decide)⟩

/-- C3.  The claim says a mid-stream chunk-read error aborts the task with
no event emitted.  Counterexample: one good chunk then a read error — the
loop breaks, but the task still falls through to emission and emits an
event built from the partial accumulator ("A"). -/
theorem read_error_still_emits :
    (mirrorTask [ChunkResult.ok chunkA, ChunkResult.err "boom"] none false).1.readError
        = true ∧
    ((mirrorTask [ChunkResult.ok chunkA, ChunkResult.err "boom"] none false).2.map
        ParsedResponse.text) = some (some "A") :=
  ⟨rfl, rfl⟩

/-- C3 (amended).  On a chunk-read error the mirror task logs and stops
reading (everything after the error is never read), but for a
non-telemetry request it still emits a response event built from the
chunks received before the error. -/
theorem read_error_truncates_then_emits (cs : List String) (e : String)
    (tail : List ChunkResult) :
    (mirrorTask (cs.map ChunkResult.ok ++ ChunkResult.err e :: tail) none false).1 =
      ⟨cs, cs, true⟩ ∧
    (mirrorTask (cs.map ChunkResult.ok ++ ChunkResult.err e :: tail) none false).2 =
      some (parse_streaming (String.join cs)) := by
  have hrun : mirrorRun (cs.map ChunkResult.ok ++ ChunkResult.err e :: tail) none =
      ⟨cs, cs, true⟩ := by
    simpa [mirrorRun] using mirrorLoopGo_err cs e tail [] []
  exact ⟨by simpa [mirrorTask] using hrun, by simp [mirrorTask, hrun]⟩

/-- C2.  The claim says a response whose final text parses as
`{ isNewTopic, title }` updates the agent's topic and is suppressed.
Counterexample: the S3 topic text streams through the pipeline and the
event is emitted anyway (`src/` has no `is_topic_event` field, no
suppression and no topic update; the classifier here is modelled from the
spec to state the shape condition). -/
theorem topic_response_not_suppressed :
    (mirrorTask [ChunkResult.ok topicChunk] none false).2.isSome = true ∧
    is_topic_event_of_text ((parse_streaming (String.join [topicChunk])).text) = true :=
  ⟨rfl, rfl⟩

/-- C2 (amended).  `ParsedResponse` has no `is_topic_event`/`topic` field
and the proxy performs no topic gating: even when the final text parses as
the spec's topic-classifier shape, the non-telemetry streaming path emits
the parsed response unchanged (and touches no agent record). -/
theorem topic_shaped_response_still_emitted (cs : List String)
    (h : is_topic_event_of_text ((parse_streaming (String.join cs)).text) = true) :
    (mirrorTask (cs.map ChunkResult.ok) none false).2 =
      some (parse_streaming (String.join cs)) := by
  have hrun : mirrorRun (cs.map ChunkResult.ok) none = ⟨cs, cs, false⟩ := by
    simpa [mirrorRun] using mirrorLoopGo_none_ok cs [] []
  simp [mirrorTask, hrun]

/-- Witness for `topic_shaped_response_still_emitted` at the S3 chunk. -/
theorem topic_shaped_response_still_emitted_witness :
    is_topic_event_of_text ((parse_streaming (String.join [topicChunk])).text) = true ∧
    (mirrorTask ([topicChunk].map ChunkResult.ok) none false).2 =
      some (parse_streaming (String.join [topicChunk])) :=
  ⟨rfl, topic_shaped_response_still_emitted [topicChunk] rfl⟩

/-- C4.  Scenario S1: `message_start` (id "m", model "c"), text deltas
"Hello" and " world", `message_stop`.  The fold appends the deltas in
stream order, records the metadata, sets `streaming`, collapses the empty
thinking accumulator to `none`, and the final text is not a topic event
(classifier modelled from the spec — `src/` has no such field). -/
theorem s1_parse_result :
    (parse_streaming s1Input).text = some "Hello world" ∧
    (parse_streaming s1Input).metadata.getStr "model" = some "c" ∧
    (parse_streaming s1Input).metadata.getStr "message_id" = some "m" ∧
    (parse_streaming s1Input).streaming = true ∧
    is_topic_event_of_text ((parse_streaming s1Input).text) = false ∧
    (parse_streaming s1Input).thinking = none :=
  ⟨rfl, rfl, rfl, rfl, rfl, rfl⟩

/-- `find?` commutes with mapping a function that does not change the
predicate's verdict. -/
theorem find?_map_preserve (st : List Agent) (f : Agent → Agent) (p : Agent → Bool)
    (h : ∀ x, p (f x) = p x) : (st.map f).find? p = (st.find? p).map f := by
  induction st with
  | nil => rfl
  | cons a rest ih =>
      simp only [List.map_cons, List.find?_cons]
      rw [h a]
      cases hp : p a <;> simp [ih]

/-- `update_last_seen` touches only `last_seen_at`/`status`, so a lookup
by session id finds the updated image of the same row. -/
theorem find_by_session_update_last_seen (st : AgentTable) (idn now : Nat)
    (stt : AgentStatus) (S : String) :
    find_by_session_id (update_last_seen st idn now stt) S =
      (find_by_session_id st S).map
        (fun a => if a.id == idn then { a with last_seen_at := now, status := stt } else a) := by
  unfold find_by_session_id update_last_seen
  exact find?_map_preserve st _ _ (by
    intro x
    by_cases hx : x.id == idn <;> simp [hx])

/-- `update_working_directory` preserves session ids likewise. -/
theorem find_by_session_update_wd (st : AgentTable) (idn : Nat)
    (wd : Option String) (S : String) :
    find_by_session_id (update_working_directory st idn wd) S =
      (find_by_session_id st S).map
        (fun a => if a.id == idn then { a with working_directory := wd } else a) := by
  unfold find_by_session_id update_working_directory
  exact find?_map_preserve st _ _ (by
    intro x
    by_cases hx : x.id == idn <;> simp [hx])

/-- The record built for a new agent in `get_or_create_agent`. -/
def freshAgent (newId : Nat) (name session_id : String) (wd : Option String)
    (now : Nat) : Agent :=
  ⟨newId, name, session_id, wd, now, now, AgentStatus.active, none⟩

/-- C5.  Two successive `get_or_create_agent` calls for the same fresh
session id return the same agent id and name, and the stored working
directory afterwards is `D1` when the first call carried one, else `D2`
(write-once on the first present observation). -/
theorem get_or_create_same_agent
    (st : AgentTable) (S : String) (D1 D2 : Option String)
    (draws : Nat → String) (id1 id2 t1 t2 : Nat)
    (hfresh : find_by_session_id st S = none)
    (hname : st.any (fun b => b.name == pickName st draws) = false) :
    ∃ a1 st1 a2 st2,
      get_or_create_agent st S D1 draws id1 t1 = Except.ok (a1, st1) ∧
      get_or_create_agent st1 S D2 draws id2 t2 = Except.ok (a2, st2) ∧
      a2.id = a1.id ∧ a2.name = a1.name ∧
      (find_by_session_id st2 S).map Agent.working_directory
        = some (if D1.isSome then D1 else D2) := by
  have h1 : get_or_create_agent st S D1 draws id1 t1 =
      Except.ok (freshAgent id1 (pickName st draws) S D1 t1,
        st ++ [freshAgent id1 (pickName st draws) S D1 t1]) := by
    simp [get_or_create_agent, hfresh, insertAgent, hname, freshAgent]
  have hfind1 : find_by_session_id
      (st ++ [freshAgent id1 (pickName st draws) S D1 t1]) S =
      some (freshAgent id1 (pickName st draws) S D1 t1) := by
    unfold find_by_session_id at hfresh ⊢
    rw [List.find?_append, hfresh]
    simp [freshAgent]
  cases D1 with
  | some d =>
      have h2 : get_or_create_agent
            (st ++ [freshAgent id1 (pickName st draws) S (some d) t1]) S D2 draws id2 t2 =
          Except.ok (freshAgent id1 (pickName st draws) S (some d) t1,
            update_last_seen (st ++ [freshAgent id1 (pickName st draws) S (some d) t1])
              (freshAgent id1 (pickName st draws) S (some d) t1).id t2 AgentStatus.active) := by
        simp only [get_or_create_agent, hfind1]
        rw [if_neg (by simp [freshAgent])]
      refine ⟨_, _, _, _, h1, h2, rfl, rfl, ?_⟩
      rw [find_by_session_update_last_seen, hfind1]
      simp [freshAgent]
  | none =>
      cases D2 with
      | some d2 =>
          have h2 : get_or_create_agent
                (st ++ [freshAgent id1 (pickName st draws) S none t1]) S (some d2) draws id2 t2 =
              Except.ok ({ freshAgent id1 (pickName st draws) S none t1 with
                  working_directory := some d2 },
                update_working_directory
                  (update_last_seen (st ++ [freshAgent id1 (pickName st draws) S none t1])
                    (freshAgent id1 (pickName st draws) S none t1).id t2 AgentStatus.active)
                  (freshAgent id1 (pickName st draws) S none t1).id (some d2)) := by
            simp only [get_or_create_agent, hfind1]
            rw [if_pos (by simp [freshAgent])]
          refine ⟨_, _, _, _, h1, h2, rfl, rfl, ?_⟩
          rw [find_by_session_update_wd, find_by_session_update_last_seen, hfind1]
          simp [freshAgent]
      | none =>
          have h2 : get_or_create_agent
                (st ++ [freshAgent id1 (pickName st draws) S none t1]) S none draws id2 t2 =
              Except.ok (freshAgent id1 (pickName st draws) S none t1,
                update_last_seen (st ++ [freshAgent id1 (pickName st draws) S none t1])
                  (freshAgent id1 (pickName st draws) S none t1).id t2 AgentStatus.active) := by
            simp only [get_or_create_agent, hfind1]
            rw [if_neg (by simp)]
          refine ⟨_, _, _, _, h1, h2, rfl, rfl, ?_⟩
          rw [find_by_session_update_last_seen, hfind1]
          simp [freshAgent]

/-- C5 witness: an empty store, `D1 = some "/w"`, `D2 = none`. -/
theorem get_or_create_same_agent_witness :
    find_by_session_id [] "s" = none ∧
    ([] : AgentTable).any (fun b => b.name == pickName [] (fun _ => "swift-fox")) = false ∧
    (∃ a1 st1 a2 st2,
      get_or_create_agent [] "s" (some "/w") (fun _ => "swift-fox") 0 0 =
        Except.ok (a1, st1) ∧
      get_or_create_agent st1 "s" none (fun _ => "swift-fox") 1 1 =
        Except.ok (a2, st2) ∧
      a2.id = a1.id ∧ a2.name = a1.name ∧
      (find_by_session_id st2 "s").map Agent.working_directory
        = some (if (some "/w").isSome then some "/w" else none)) :=
  ⟨rfl, rfl, get_or_create_same_agent [] "s" (some "/w") none (fun _ => "swift-fox")
      0 1 0 1 rfl rfl⟩

theorem mem_insertByLastSeenDesc (a b : Agent) (l : List Agent) :
    a ∈ insertByLastSeenDesc b l ↔ a = b ∨ a ∈ l := by
  induction l with
  | nil => simp [insertByLastSeenDesc]
  | cons c rest ih =>
      simp only [insertByLastSeenDesc]
      split <;> simp [ih] <;> tauto

theorem mem_sortByLastSeenDesc (a : Agent) (l : List Agent) :
    a ∈ sortByLastSeenDesc l ↔ a ∈ l := by
  induction l with
  | nil => simp [sortByLastSeenDesc]
  | cons c rest ih => simp [sortByLastSeenDesc, mem_insertByLastSeenDesc, ih]

/-- An agent row stored `active` whose `last_seen_at` is 1000 s old. -/
def staleAgent : Agent :=
  ⟨1, "swift-fox", "sess", none, 0, 0, AgentStatus.active, none⟩

/-- C6.  The claim says every read path (including `GET /api/agents`)
derives `inactive` when `last_seen_at` is older than 5 minutes.
Counterexample: at read time 1000 s, `staleAgent` is far older than 300 s
yet `agents_handler` returns it with its stored `active` status — no
derivation happens on the HTTP path. -/
theorem stale_agent_reported_active :
    agents_handler [staleAgent] = [staleAgent] ∧
    staleAgent.status = AgentStatus.active ∧
    300 < 1000 - staleAgent.last_seen_at :=
  ⟨rfl, rfl, by decide⟩

/-- C6 (amended).  `list_all`/`GET /api/agents` return the stored rows
unchanged (in particular the stored status); the 5-minute inactivity rule
is applied only by the CLI `agents` display (`show_agents`). -/
theorem api_returns_stored_status_cli_derives (st : AgentTable) (a : Agent) (now : Nat) :
    (a ∈ agents_handler st ↔ a ∈ st) ∧
    (cliDisplayStatus now a = AgentStatus.inactive ↔ 300 < now - a.last_seen_at) := by
  constructor
  · simpa [agents_handler, list_all] using mem_sortByLastSeenDesc a st
  · by_cases hc : 300 < now - a.last_seen_at <;> simp [cliDisplayStatus, hc]

/-- A request body whose only `Working directory:` marker sits in a
`messages[0].content` array-of-text-blocks. -/
def c7Body : Json :=
  Json.obj [("messages", Json.arr [Json.obj [("content", Json.arr
    [Json.obj [("type", Json.str "text"),
               ("text", Json.str "Working directory: /x")]])]])]

/-- C7.  The claim says both the string form and the array-of-text-blocks
form of `messages.content` are searched.  Counterexample: a marker inside
a message's content-block array is found by the spec's search
(`extract_working_directory_specModel`) but missed by the code, which only
checks `content.as_str()` for messages. -/
theorem messages_block_form_not_searched :
    extract_working_directory c7Body = none ∧
    extract_working_directory_specModel c7Body = some "/x" :=
  ⟨rfl, rfl⟩

theorem findSome?_append_or {α β : Type} (l1 l2 : List α) (f : α → Option β) :
    (l1 ++ l2).findSome? f = (l1.findSome? f).or (l2.findSome? f) := by
  induction l1 with
  | nil => simp [List.findSome?]
  | cons a rest ih =>
      simp only [List.cons_append, List.findSome?]
      cases f a <;> simp [ih]

theorem findSome?_filterMap {α β γ : Type} (l : List α) (f : α → Option β)
    (g : β → Option γ) :
    (l.filterMap f).findSome? g = l.findSome? (fun x => (f x).bind g) := by
  induction l with
  | nil => rfl
  | cons a rest ih =>
      cases hf : f a with
      | none =>
          simp only [List.filterMap_cons, hf, List.findSome?, Option.none_bind]
          exact ih
      | some b =>
          simp only [List.filterMap_cons, hf, List.findSome?, Option.some_bind]
          cases g b <;> simp [ih]

/-- The text segments `extract_working_directory` actually visits, in
visit order: the `system` field's string form, then the `system` field's
array-of-text-blocks texts, then the plain-string `messages.content`s.
A `messages.content` that is an array of blocks contributes nothing
(contrast `spec_text_segments`, which includes it). -/
def code_text_segments (j : Json) : List String :=
  (match j.getObjVal "system" with
   | some system =>
       (match system.asStr with
        | some t => [t]
        | none => []) ++
       (match system.asArray with
        | some blocks => blocks.filterMap (fun (b : Json) => b.getStr "text")
        | none => [])
   | none => []) ++
  (match (j.getObjVal "messages").bind Json.asArray with
   | some msgs =>
       msgs.filterMap (fun (m : Json) => (m.getObjVal "content").bind Json.asStr)
   | none => [])

example : code_text_segments c7Body = [] := rfl
example : spec_text_segments c7Body = ["Working directory: /x"] := rfl
example :
    code_text_segments (Json.obj [("system", Json.arr
      [Json.obj [("text", Json.str "a")], Json.obj [("text", Json.str "b")]]),
      ("messages", Json.arr [Json.obj [("content", Json.str "c")]])]) =
    ["a", "b", "c"] := rfl

/-- C7 (amended).  For EVERY request body, working-directory extraction
equals a first-match `search_text` scan over exactly the code's segment
list: the `system` string form, the `system` array-of-text-blocks texts,
and the plain-string `messages.content`s, in that order — so the `system`
array form IS searched, the earliest matching segment wins across
segments, and a `messages.content` block array is never searched. -/
theorem working_directory_search_scope (j : Json) :
    extract_working_directory j = (code_text_segments j).findSome? search_text := by
  have hmsg :
      (match (j.getObjVal "messages").bind Json.asArray with
       | some msgs =>
           msgs.findSome? (fun (m : Json) =>
             match (m.getObjVal "content").bind Json.asStr with
             | some c => search_text c
             | none => none)
       | none => none) =
      ((match (j.getObjVal "messages").bind Json.asArray with
        | some msgs =>
            msgs.filterMap (fun (m : Json) => (m.getObjVal "content").bind Json.asStr)
        | none => []) : List String).findSome? search_text := by
    cases hm : (j.getObjVal "messages").bind Json.asArray with
    | none => rfl
    | some msgs =>
        dsimp only
        rw [findSome?_filterMap]
        congr 1
        funext m
        cases hc : (m.getObjVal "content").bind Json.asStr <;> simp [hc]
  unfold extract_working_directory code_text_segments
  cases hs : j.getObjVal "system" with
  | none => simpa using hmsg
  | some system =>
      cases system with
      | null => simpa [Json.asStr, Json.asArray] using hmsg
      | bool b => simpa [Json.asStr, Json.asArray] using hmsg
      | num n i => simpa [Json.asStr, Json.asArray] using hmsg
      | obj fs => simpa [Json.asStr, Json.asArray] using hmsg
      | str t =>
          simp only [Json.asStr, Json.asArray]
          cases h1 : search_text t
          · simpa [List.findSome?, h1] using hmsg
          · simp [List.findSome?, h1]
      | arr xs =>
          simp only [Json.asStr, Json.asArray, List.nil_append]
          rw [findSome?_append_or, findSome?_filterMap]
          have hblk :
              (xs.findSome? (fun (b : Json) =>
                match b.getStr "text" with
                | some t => search_text t
                | none => none)) =
              xs.findSome? (fun (b : Json) => (b.getStr "text").bind search_text) := by
            congr 1
            funext b
            cases hb : b.getStr "text" <;> simp [hb]
          rw [hblk]
          cases h2 : xs.findSome? (fun (b : Json) => (b.getStr "text").bind search_text)
          · simpa [h2] using hmsg
          · simp [h2]

/-- An observability event whose durable sequence number is 42. -/
def e42 : OEvent := ⟨some 42, none⟩

/-- C8.  The claim says the resync envelope's `latest_seq` equals the
sequence number of the latest event.  Counterexample: the subscriber sees
the event with `seq = 42` and then lags by 7; the envelope the loop yields
carries `latest_seq = 0` — the code hard codes 0. -/
theorem resync_latest_seq_hardcoded_zero :
    sseLoop none [RecvResult.ok e42, RecvResult.lagged 7] =
      [SSeMessageEnvelope.observabilityEvent e42,
       SSeMessageEnvelope.resyncRequired 7 0] ∧
    e42.seq = some 42 ∧ (0 : Int) ≠ 42 :=
  ⟨rfl, rfl, by decide⟩

/-- C8 (amended).  A lagging subscriber is delivered a `resync_required`
envelope whose `events_dropped` is the lag count the channel reported, but
whose `latest_seq` is always 0 rather than the latest event's sequence
number. -/
theorem resync_envelope_fields (filter : Option String) (ins : List RecvResult)
    (d s : Nat)
    (h : SSeMessageEnvelope.resyncRequired d s ∈ sseLoop filter ins) :
    s = 0 ∧ RecvResult.lagged d ∈ ins := by
  induction ins with
  | nil => simp [sseLoop] at h
  | cons r rest ih =>
      cases r with
      | ok e =>
          rcases filter with _ | f
          · simp only [sseLoop, List.mem_cons] at h
            rcases h with h | h
            · cases h
            · have := ih h
              exact ⟨this.1, List.mem_cons_of_mem _ this.2⟩
          · simp only [sseLoop] at h
            split at h
            · rcases List.mem_cons.mp h with h2 | h2
              · cases h2
              · have := ih h2
                exact ⟨this.1, List.mem_cons_of_mem _ this.2⟩
            · have := ih h
              exact ⟨this.1, List.mem_cons_of_mem _ this.2⟩
      | lagged n =>
          simp only [sseLoop, List.mem_cons] at h
          rcases h with h | h
          · cases h
            exact ⟨rfl, List.mem_cons_self _ _⟩
          · have := ih h
            exact ⟨this.1, List.mem_cons_of_mem _ this.2⟩
      | closed => simp [sseLoop] at h

/-- C8 witness: a bare lag of 7 yields the zero-`latest_seq` envelope. -/
theorem resync_envelope_fields_witness :
    SSeMessageEnvelope.resyncRequired 7 0 ∈ sseLoop none [RecvResult.lagged 7] ∧
    (0 = 0 ∧ RecvResult.lagged 7 ∈ [RecvResult.lagged 7]) :=
  ⟨by simp [sseLoop], resync_envelope_fields none [RecvResult.lagged 7] 7 0
      (by simp [sseLoop])⟩

/-- C9.  When `metadata.user_id` yields no session id, the proxy falls
back to the first string-valued `events[i].event_data.session_id` of the
body's events array; a request resolved this way still reaches
`get_or_create_agent`, which bumps the matching agent's `last_seen_at`
(and status) to now. -/
theorem telemetry_session_fallback (j : Json) (st : AgentTable) (a : Agent)
    (sid : String) (draws : Nat → String) (newId now : Nat)
    (hmeta : extract_session_id_from_metadata_user_id j = none)
    (hev : extract_session_id_from_events j = some sid)
    (hfind : find_by_session_id st sid = some a) :
    extract_claude_session_id j = some sid ∧
    get_or_create_agent st sid none draws newId now =
      Except.ok (a, update_last_seen st a.id now AgentStatus.active) ∧
    ∀ b ∈ update_last_seen st a.id now AgentStatus.active,
      b.id = a.id → b.last_seen_at = now ∧ b.status = AgentStatus.active := by
  refine ⟨?_, ?_, ?_⟩
  · simp [extract_claude_session_id, hmeta, hev, Option.orElse]
  · simp only [get_or_create_agent, hfind]
    rw [if_neg (by simp)]
  · intro b hb hid
    unfold update_last_seen at hb
    rcases List.mem_map.mp hb with ⟨x, hx, hbx⟩
    by_cases hxi : x.id == a.id
    · rw [if_pos hxi] at hbx
      cases hbx
      simp
    · rw [if_neg hxi] at hbx
      cases hbx
      rw [hid] at hxi
      simp at hxi

/-- The telemetry batch body of C9's scenario. -/
def telemetryBody : Json :=
  Json.obj [("events", Json.arr
    [Json.obj [("event_data", Json.obj [("session_id", Json.str "7f2")])]])]

/-- The agent row for session "7f2". -/
def tAgent : Agent := ⟨5, "calm-owl", "7f2", none, 0, 0, AgentStatus.active, none⟩

/-- C9 witness: the concrete telemetry body resolves "7f2" and the stored
row's `last_seen_at` advances to 50. -/
theorem telemetry_session_fallback_witness :
    extract_session_id_from_metadata_user_id telemetryBody = none ∧
    extract_session_id_from_events telemetryBody = some "7f2" ∧
    find_by_session_id [tAgent] "7f2" = some tAgent ∧
    (extract_claude_session_id telemetryBody = some "7f2" ∧
     get_or_create_agent [tAgent] "7f2" none (fun _ => "warm-pine") 9 50 =
       Except.ok (tAgent, update_last_seen [tAgent] tAgent.id 50 AgentStatus.active) ∧
     ∀ b ∈ update_last_seen [tAgent] tAgent.id 50 AgentStatus.active,
       b.id = tAgent.id → b.last_seen_at = 50 ∧ b.status = AgentStatus.active) :=
  ⟨rfl, rfl, rfl,
    telemetry_session_fallback telemetryBody [tAgent] tAgent "7f2"
      (fun _ => "warm-pine") 9 50 rfl rfl rfl⟩

/-- C10.  `mark_inactive` visits every row: rows whose `session_id`
matches get `status := inactive` and `last_seen_at := now` with every
other column unchanged; rows with a different `session_id` are untouched. -/
theorem mark_inactive_frame (st : AgentTable) (sid : String) (now : Nat) :
    List.Forall₂ (fun a b =>
      (a.session_id = sid →
        b.status = AgentStatus.inactive ∧ b.last_seen_at = now ∧
        b.id = a.id ∧ b.name = a.name ∧ b.session_id = a.session_id ∧
        b.working_directory = a.working_directory ∧
        b.created_at = a.created_at ∧ b.topic = a.topic) ∧
      (a.session_id ≠ sid → b = a))
      st (mark_inactive st sid now) := by
  induction st with
  | nil => simp [mark_inactive]
  | cons a rest ih =>
      refine List.Forall₂.cons ?_ ih
      constructor
      · intro hs
        simp [hs]
      · intro hs
        simp [beq_iff_eq, hs]
